import Mathlib

/-!
Verification of the AI-Appointment-Scheduler repository.

The Python source (src/utils.py, src/calendar_tools.py) is shallowly embedded
below.  Conventions of the embedding:

* calendar dates are represented by their day number (days since 1970-01-01,
  an `Int`); datetimes by minutes since that epoch (an `Int`);
* `datetime.now()` is passed in explicitly as a `today : Int` day number
  (the ambient clock, injected as a parameter);
* Python's regular-expression searches (the `re` module, external to the
  repository) are reproduced by a small executable backtracking matcher
  `Rx` implementing exactly the constructs the source's patterns use, with
  Python's leftmost-search and greedy/backtracking preference order;
* a Python function that can raise and whose exceptions the source catches
  is embedded as an `Option`-returning function (`none` = it raised);
* `int(s)` is embedded by `pyInt`, defined on strings of decimal digits
  (every string the source can pass it is either such a string or one on
  which `int` raises, which `pyInt` maps to `none`).
-/

/-! ### Python `int` and zero padding -/

/-- Python `int(s)` on the strings reachable in this code: all-digit strings
parse, everything else raises (`none`). -/
def pyInt (s : String) : Option Int :=
  if s.length > 0 && s.data.all Char.isDigit then
    some (Int.ofNat (s.data.foldl (fun a c => 10 * a + (c.toNat - 48)) 0))
  else
    none

/-- Python `str.lower()` (character-wise; the text here is ASCII). -/
def pyLower (s : String) : String := String.mk (s.data.map Char.toLower)

def splitColonAux : List Char → List Char → List String
  | [], acc => [String.mk acc.reverse]
  | c :: cs, acc =>
    if c == ':' then String.mk acc.reverse :: splitColonAux cs []
    else splitColonAux cs (c :: acc)

/-- Python `s.split(':')`. -/
def splitColon (s : String) : List String := splitColonAux s.data []

/-- Python `f"{n:02d}"` for the nonnegative values this code formats. -/
def pad2 (n : Int) : String :=
  if n < 10 then "0" ++ toString n else toString n

/-- Python `f"{n:04d}"`-style padding used by `strftime("%Y")`. -/
def pad4 (n : Int) : String :=
  if n < 10 then "000" ++ toString n
  else if n < 100 then "00" ++ toString n
  else if n < 1000 then "0" ++ toString n
  else toString n

/-! ### Calendar arithmetic (the embedding of Python's `datetime.date`)

Standard civil-calendar conversions (Gregorian, proleptic), days counted
from 1970-01-01. -/

def isLeap (y : Int) : Bool :=
  (y.emod 4 == 0 && y.emod 100 != 0) || y.emod 400 == 0

def daysInMonth (y m : Int) : Int :=
  if m = 2 then (if isLeap y then 29 else 28)
  else if m = 4 ∨ m = 6 ∨ m = 9 ∨ m = 11 then 30
  else 31

/-- Day number of a civil date (days since 1970-01-01). -/
def daysFromCivil (y m d : Int) : Int :=
  let y2 := y - (if m ≤ 2 then 1 else 0)
  let era := Int.ediv y2 400
  let yoe := y2 - era * 400
  let doy := Int.ediv (153 * (m + (if m > 2 then -3 else 9)) + 2) 5 + d - 1
  let doe := yoe * 365 + Int.ediv yoe 4 - Int.ediv yoe 100 + doy
  era * 146097 + doe - 719468

/-- Civil date of a day number: `(year, month, day)`. -/
def civilFromDays (z : Int) : Int × Int × Int :=
  let z2 := z + 719468
  let era := Int.ediv z2 146097
  let doe := z2 - era * 146097
  let yoe := Int.ediv (doe - Int.ediv doe 1460 + Int.ediv doe 36524 - Int.ediv doe 146096) 365
  let y := yoe + era * 400
  let doy := doe - (365 * yoe + Int.ediv yoe 4 - Int.ediv yoe 100)
  let mp := Int.ediv (5 * doy + 2) 153
  let d := doy - Int.ediv (153 * mp + 2) 5 + 1
  let m := mp + (if mp < 10 then 3 else -9)
  (y + (if m ≤ 2 then 1 else 0), m, d)

/-- `datetime(year, month, day)`: validates ranges exactly as the Python
constructor (MINYEAR..MAXYEAR, month 1..12, day 1..days-in-month); an invalid
date raises, i.e. gives `none`. -/
def mkDate (y m d : Int) : Option (Int × Int × Int) :=
  if 1 ≤ y ∧ y ≤ 9999 ∧ 1 ≤ m ∧ m ≤ 12 ∧ 1 ≤ d ∧ d ≤ daysInMonth y m then
    some (y, m, d)
  else none

/-- `datetime(y,m,d).date()` as a day number. -/
def mkDateDays (y m d : Int) : Option Int :=
  (mkDate y m d).map fun t => daysFromCivil t.1 t.2.1 t.2.2

/-- Python `date.weekday()` (Monday = 0) of a day number: 1970-01-01 was a
Thursday (weekday 3). -/
def pyWeekday (d : Int) : Int := (d + 3).emod 7

/-- `date.strftime("%Y-%m-%d")`. -/
def fmtDate (days : Int) : String :=
  let c := civilFromDays days
  pad4 c.1 ++ "-" ++ pad2 c.2.1 ++ "-" ++ pad2 c.2.2

/-! ### A small regex engine

Executable embedding of the `re.search` calls the source makes.  It supports
precisely the constructs appearing in the source's patterns: literals,
character classes, concatenation, alternation (left-preferred), greedy
`*`/`+`/`{lo,hi}` over a character class, greedy `?`, numbered capture
groups and the word boundary `\b`.  `runM` enumerates candidate matches in
Python's backtracking preference order; `search` takes the first match at
the leftmost matching position, exactly `re.search`. -/

inductive Rx where
  | lit : List Char → Rx
  | cls : (Char → Bool) → Rx
  | seq : Rx → Rx → Rx
  | alt : Rx → Rx → Rx
  | star : (Char → Bool) → Rx
  | rep : Nat → Nat → (Char → Bool) → Rx
  | opt : Rx → Rx
  | grp : Nat → Rx → Rx
  | bnd : Rx

/-- Python `\w` on lowercased ASCII text. -/
def isWordChar (c : Char) : Bool := c.isAlphanum || c == '_'

/-- All splits `(taken, rest)` of a maximal run of `p`-characters, longest
first (the greedy preference order). -/
def splitsDesc (p : Char → Bool) : List Char → List (List Char × List Char)
  | [] => [([], [])]
  | c :: cs =>
    if p c then
      ((splitsDesc p cs).map fun tr => (c :: tr.1, tr.2)) ++ [([], c :: cs)]
    else [([], c :: cs)]

/-- One candidate match: consumed characters, captures `(group, text)`, rest. -/
abbrev RxRes := List (List Char × List (Nat × List Char) × List Char)

/-- All candidate matches of a pattern at the start of `cs`, in Python's
preference order; `prev` is the character just before `cs` (for `\b`). -/
def Rx.runM : Rx → Option Char → List Char → RxRes
  | .lit s, _, cs =>
    if s.isPrefixOf cs then [(s, [], cs.drop s.length)] else []
  | .cls p, _, cs =>
    match cs with
    | [] => []
    | c :: rest => if p c then [([c], [], rest)] else []
  | .seq a b, prev, cs =>
    (a.runM prev cs).flatMap fun r1 =>
      let prev2 := match r1.1.getLast? with | some c => some c | none => prev
      (b.runM prev2 r1.2.2).map fun r2 =>
        (r1.1 ++ r2.1, r1.2.1 ++ r2.2.1, r2.2.2)
  | .alt a b, prev, cs => a.runM prev cs ++ b.runM prev cs
  | .star p, _, cs => (splitsDesc p cs).map fun tr => (tr.1, [], tr.2)
  | .rep lo hi p, _, cs =>
    ((splitsDesc p cs).filter fun tr => lo ≤ tr.1.length && tr.1.length ≤ hi).map
      fun tr => (tr.1, [], tr.2)
  | .opt a, prev, cs => a.runM prev cs ++ [([], [], cs)]
  | .grp n a, prev, cs =>
    (a.runM prev cs).map fun r => (r.1, r.2.1 ++ [(n, r.1)], r.2.2)
  | .bnd, prev, cs =>
    let pw := match prev with | some c => isWordChar c | none => false
    let nw := match cs.head? with | some c => isWordChar c | none => false
    if pw != nw then [([], [], cs)] else []

/-- A regex match: the whole matched text (`group(0)`) and the captures. -/
structure RMatch where
  g0 : String
  caps : List (Nat × String)
deriving Repr, DecidableEq

/-- `match.group(n)` (`none` = the group did not participate). -/
def RMatch.group (m : RMatch) (n : Nat) : Option String :=
  (m.caps.find? fun c => c.1 == n).map (·.2)

/-- `match.groups()` for a pattern with `n` groups. -/
def RMatch.mkGroups (m : RMatch) (n : Nat) : List (Option String) :=
  (List.range n).map fun i => m.group (i + 1)

def searchAux (r : Rx) : Option Char → List Char → Option RMatch
  | prev, cs =>
    match (r.runM prev cs).head? with
    | some res => some ⟨String.mk res.1, (res.2.1.map fun c => (c.1, String.mk c.2))⟩
    | none =>
      match cs with
      | [] => none
      | c :: rest => searchAux r (some c) rest

/-- `re.search(pattern, s)`: first match at the leftmost matching position. -/
def Rx.search (r : Rx) (s : String) : Option RMatch :=
  searchAux r none s.data

/-! Pattern-building helpers. -/

def rxSeqs (l : List Rx) : Rx := l.foldr Rx.seq (.lit [])

/-- `\b ... \b` wrapping. -/
def bworded (r : Rx) : Rx := rxSeqs [.bnd, r, .bnd]

def rxStr (s : String) : Rx := .lit s.data

def isSpaceChar (c : Char) : Bool := c.isWhitespace

/-- `(am|pm)` alternation body. -/
def rxAmPm : Rx := .alt (rxStr "am") (rxStr "pm")

/-! ### The Temporal Expression Extractor (src/utils.py) -/

/-- `\s+` (greedy). -/
def plusRx (p : Char → Bool) : Rx := .seq (.cls p) (.star p)

def isSlashDash (c : Char) : Bool := c == '/' || c == '-'

/-- `(?:st|nd|rd|th)` non-capturing suffix group. -/
def ordSuffixRx : Rx :=
  .alt (.alt (rxStr "st") (rxStr "nd")) (.alt (rxStr "rd") (rxStr "th"))

/-- `(\w+day)`. -/
def wdayRx : Rx := rxSeqs [plusRx isWordChar, rxStr "day"]

/-- Source `weekday_map` (both occurrences are identical). -/
def weekday_map : List (String × Int) :=
  [("monday", 0), ("tuesday", 1), ("wednesday", 2), ("thursday", 3),
   ("friday", 4), ("saturday", 5), ("sunday", 6)]

/-- Source `month_map` (both occurrences are identical). -/
def month_map : List (String × Int) :=
  [("january", 1), ("february", 2), ("march", 3), ("april", 4),
   ("may", 5), ("june", 6), ("july", 7), ("august", 8),
   ("september", 9), ("october", 10), ("november", 11), ("december", 12),
   ("jan", 1), ("feb", 2), ("mar", 3), ("apr", 4),
   ("jun", 6), ("jul", 7), ("aug", 8), ("sep", 9), ("oct", 10),
   ("nov", 11), ("dec", 12)]

/-- Python `dict.get`. -/
def lookupAssoc (l : List (String × Int)) (k : String) : Option Int :=
  (l.find? fun p => p.1 == k).map (·.2)

/-- `_parse_next_weekday` (utils.py:125): strictly-future occurrence; a
`None` from `weekday_map.get` propagates (the caller then raises on
`None.strftime` and moves on, i.e. `none` here). -/
def parse_next_weekday (today : Int) (name : Option String) : Option Int := do
  let weekday_name ← name
  let target_weekday ← lookupAssoc weekday_map (pyLower weekday_name)
  let days_ahead := target_weekday - pyWeekday today
  let days_ahead := if days_ahead ≤ 0 then days_ahead + 7 else days_ahead
  return today + days_ahead

/-- `_parse_this_weekday` (utils.py:144): occurrence on/after today. -/
def parse_this_weekday (today : Int) (name : Option String) : Option Int := do
  let weekday_name ← name
  let target_weekday ← lookupAssoc weekday_map (pyLower weekday_name)
  let days_ahead := target_weekday - pyWeekday today
  let days_ahead := if days_ahead < 0 then days_ahead + 7 else days_ahead
  return today + days_ahead

/-- `_parse_date_slash` (utils.py:163): MM/DD/YYYY, two-digit years adjusted. -/
def parse_date_slash (g1 g2 g3 : Option String) : Option Int := do
  let month ← g1.bind pyInt
  let day ← g2.bind pyInt
  let year ← g3.bind pyInt
  let year := if year < 100 then (if year < 50 then year + 2000 else year + 1900) else year
  mkDateDays year month day

/-- `_parse_date_iso` (utils.py:177). -/
def parse_date_iso (g1 g2 g3 : Option String) : Option Int := do
  let year ← g1.bind pyInt
  let month ← g2.bind pyInt
  let day ← g3.bind pyInt
  mkDateDays year month day

/-- `_parse_month_day` (utils.py:185): "January 15th"; a date already past
this year rolls to next year. -/
def parse_month_day (today : Int) (g1 g2 : Option String) : Option Int := do
  let month_name ← g1
  let day ← g2.bind pyInt
  let month ← lookupAssoc month_map (pyLower month_name)
  let year := (civilFromDays today).1
  let date_this_year ← mkDateDays year month day
  if date_this_year < today then
    mkDateDays (year + 1) month day
  else
    return date_this_year

/-- `_parse_day_month` (utils.py:211): "15th January". -/
def parse_day_month (today : Int) (g1 g2 : Option String) : Option Int := do
  let day ← g1.bind pyInt
  let month_name ← g2
  let month ← lookupAssoc month_map (pyLower month_name)
  let year := (civilFromDays today).1
  let date_this_year ← mkDateDays year month day
  if date_this_year < today then
    mkDateDays (year + 1) month day
  else
    return date_this_year

/-- `_parse_time_match` (utils.py:237).  Its whole body is inside
`try: ... except: return None`; in particular `int(groups[1])` on a
non-digit capture (as happens for the bare-hour pattern, whose second group
is the meridiem) raises and gives `None`. -/
def parse_time_match (g0 : String) (groups : List (Option String)) : Option String := do
  if g0 == "noon" || g0 == "midnight" || g0 == "morning" || g0 == "afternoon"
      || g0 == "evening" then
    return g0
  let h0 ← groups.head?
  let hs ← h0
  let hour ← pyInt hs
  let minute ← (match groups.get? 1 with
    | some (some s) => if s.isEmpty then some (0 : Int) else pyInt s
    | some none => some 0
    | none => some 0)
  let am_pm : Option String := if groups.length > 2 then groups.getLast?.bind id else none
  let hour := match am_pm with
    | some ap =>
      if pyLower ap == "pm" && hour != 12 then hour + 12
      else if pyLower ap == "am" && hour == 12 then 0
      else hour
    | none => hour
  return pad2 hour ++ ":" ++ pad2 minute

/-- Source `date_patterns` (utils.py:28), in priority order; each entry is
the pattern with its resolver over `today` (the injected `datetime.now()`). -/
def date_patterns (today : Int) : List (Rx × (RMatch → Option Int)) :=
  [ (bworded (rxStr "today"), fun _ => some today),
    (bworded (rxStr "tomorrow"), fun _ => some (today + 1)),
    (bworded (rxStr "yesterday"), fun _ => some (today - 1)),
    (rxSeqs [.bnd, rxStr "next", plusRx isSpaceChar, rxStr "week", .bnd],
      fun _ => some (today + 7)),
    (rxSeqs [.bnd, rxStr "next", plusRx isSpaceChar, .grp 1 wdayRx, .bnd],
      fun m => parse_next_weekday today (m.group 1)),
    (rxSeqs [.bnd, rxStr "this", plusRx isSpaceChar, .grp 1 wdayRx, .bnd],
      fun m => parse_this_weekday today (m.group 1)),
    (rxSeqs [.bnd, .grp 1 (.rep 1 2 Char.isDigit), .cls isSlashDash,
             .grp 2 (.rep 1 2 Char.isDigit), .cls isSlashDash,
             .grp 3 (.rep 2 4 Char.isDigit), .bnd],
      fun m => parse_date_slash (m.group 1) (m.group 2) (m.group 3)),
    (rxSeqs [.bnd, .grp 1 (.rep 4 4 Char.isDigit), .cls isSlashDash,
             .grp 2 (.rep 1 2 Char.isDigit), .cls isSlashDash,
             .grp 3 (.rep 1 2 Char.isDigit), .bnd],
      fun m => parse_date_iso (m.group 1) (m.group 2) (m.group 3)),
    (rxSeqs [.bnd, .grp 1 (plusRx isWordChar), plusRx isSpaceChar,
             .grp 2 (.rep 1 2 Char.isDigit), .opt ordSuffixRx, .bnd],
      fun m => parse_month_day today (m.group 1) (m.group 2)),
    (rxSeqs [.bnd, .grp 1 (.rep 1 2 Char.isDigit), .opt ordSuffixRx,
             plusRx isSpaceChar, .grp 2 (plusRx isWordChar), .bnd],
      fun m => parse_day_month today (m.group 1) (m.group 2)) ]

/-- Source `time_patterns` (utils.py:45) with each pattern's group count. -/
def time_patterns : List (Rx × Nat) :=
  [ (rxSeqs [.bnd, .grp 1 (.rep 1 2 Char.isDigit), rxStr ":",
             .grp 2 (.rep 2 2 Char.isDigit), .star isSpaceChar,
             .opt (.grp 3 rxAmPm), .bnd], 3),
    (rxSeqs [.bnd, .grp 1 (.rep 1 2 Char.isDigit), .star isSpaceChar,
             .grp 2 rxAmPm, .bnd], 2),
    (rxSeqs [.bnd, .grp 1 (.rep 1 2 Char.isDigit), rxStr ".",
             .grp 2 (.rep 2 2 Char.isDigit), .bnd], 2),
    (bworded (rxStr "noon"), 0),
    (bworded (rxStr "midnight"), 0),
    (bworded (rxStr "morning"), 0),
    (bworded (rxStr "afternoon"), 0),
    (bworded (rxStr "evening"), 0) ]

/-- Source `duration_patterns` (utils.py:57); note the second pattern is
`(\d+)\s*mins?|minutes?` — a top-level alternation whose right alternative
has no group, so its resolver `int(m.group(1))` raises there (→ `none`). -/
def duration_patterns : List (Rx × (RMatch → Option Int)) :=
  [ (rxSeqs [.grp 1 (plusRx Char.isDigit), .star isSpaceChar, rxStr "hour",
             .opt (rxStr "s")],
      fun m => ((m.group 1).bind pyInt).map (· * 60)),
    (.alt (rxSeqs [.grp 1 (plusRx Char.isDigit), .star isSpaceChar, rxStr "min",
                   .opt (rxStr "s")])
          (rxSeqs [rxStr "minute", .opt (rxStr "s")]),
      fun m => (m.group 1).bind pyInt),
    (rxSeqs [.grp 1 (plusRx Char.isDigit), .star isSpaceChar, rxStr "hr",
             .opt (rxStr "s")],
      fun m => ((m.group 1).bind pyInt).map (· * 60)),
    (rxSeqs [rxStr "half", .star isSpaceChar, rxStr "hour"], fun _ => some 30),
    (rxSeqs [rxStr "quarter", .star isSpaceChar, rxStr "hour"], fun _ => some 15) ]

/-- The date-extraction loop (utils.py:66): first pattern that matches AND
whose resolver yields a date wins; a resolver failure (a raise, or `None`
making the subsequent `strftime` raise) is caught and the loop continues. -/
def runDatePatterns : List (Rx × (RMatch → Option Int)) → String → Option Int
  | [], _ => none
  | (r, p) :: rest, t =>
    match r.search t with
    | some m =>
      match p m with
      | some d => some d
      | none => runDatePatterns rest t
    | none => runDatePatterns rest t

/-- The value the time loop body derives from a match (utils.py:84–97). -/
def timeValueOfMatch (m : RMatch) (ng : Nat) : Option String :=
  if m.g0 == "noon" then some "12:00"
  else if m.g0 == "midnight" then some "00:00"
  else if m.g0 == "morning" then some "09:00"
  else if m.g0 == "afternoon" then some "14:00"
  else if m.g0 == "evening" then some "18:00"
  else parse_time_match m.g0 (m.mkGroups ng)

/-- The time-extraction loop (utils.py:80): the FIRST pattern whose search
matches ends the loop (`break`) whatever `_parse_time_match` returned —
a failed parse leaves `time = None` rather than trying later patterns,
because `_parse_time_match` swallows its own exceptions. -/
def runTimePatterns : List (Rx × Nat) → String → Option String
  | [], _ => none
  | (r, ng) :: rest, t =>
    match r.search t with
    | some m => timeValueOfMatch m ng
    | none => runTimePatterns rest t

/-- The duration-extraction loop (utils.py:105): first pattern that matches
and whose resolver does not raise wins. -/
def runDurationPatterns : List (Rx × (RMatch → Option Int)) → String → Option Int
  | [], _ => none
  | (r, p) :: rest, t =>
    match r.search t with
    | some m =>
      match p m with
      | some d => some d
      | none => runDurationPatterns rest t
    | none => runDurationPatterns rest t

/-- The combination step (utils.py:114): split the time on ':', read hour and
minute, `datetime.combine` with `replace(hour, minute)` validating the
ranges; any failure is swallowed and leaves `parsed_datetime = None`.
The combined timestamp is minutes since the epoch. -/
def combine_datetime (d : Int) (t : String) : Option Int := do
  let parts := splitColon t
  let hs ← parts.get? 0
  let ms ← parts.get? 1
  let hour ← pyInt hs
  let minute ← pyInt ms
  if hour < 24 ∧ minute < 60 then
    return 1440 * d + 60 * hour + minute
  else none

/-- The result dictionary of `extract_datetime_info`. -/
structure ExtractResult where
  date : Option Int
  time : Option String
  duration : Option Int
  date_str : Option String
  time_str : Option String
  parsed_datetime : Option Int
deriving Repr, DecidableEq

/-- `extract_datetime_info` (utils.py:6), over the injected `today`.
In the source, `date` and `date_str` are set together just before `break`
(a resolver returning `None` makes `None.strftime` raise, which is caught
and treated as continue), so `date_str` is exactly `date` formatted; and
`time_str` is assigned `result['time']` verbatim. -/
def extract_datetime_info (today : Int) (text : String) : ExtractResult :=
  let text_lower := pyLower text
  let date := runDatePatterns (date_patterns today) text_lower
  let time := runTimePatterns time_patterns text_lower
  let duration := runDurationPatterns duration_patterns text_lower
  { date := date
    time := time
    duration := duration
    date_str := date.map fmtDate
    time_str := time
    parsed_datetime :=
      match date, time with
      | some d, some t => combine_datetime d t
      | _, _ => none }

/-! ### `strptime` embeddings

`datetime.strptime(s, fmt)` for the two formats the source uses.  The
CPython directive regexes (`%Y` exactly four digits, `%m`/`%d`/`%H`/`%M`
one or two digits with the documented value ranges, the whole string
consumed) are reproduced by taking the maximal digit run at each directive
and validating it — equivalent, since each directive here is followed by a
non-digit or the end of the string. -/

/-- Maximal leading run of digits and the rest. -/
def digitsSpan : List Char → List Char × List Char
  | [] => ([], [])
  | c :: cs =>
    if c.isDigit then
      let r := digitsSpan cs
      (c :: r.1, r.2)
    else ([], c :: cs)

def digitsVal (l : List Char) : Int :=
  Int.ofNat (l.foldl (fun a c => 10 * a + (c.toNat - 48)) 0)

/-- `datetime.strptime(s, "%Y-%m-%d")` as a validated `(year, month, day)`;
`none` = it raised `ValueError`. -/
def parseDateYMD (s : String) : Option (Int × Int × Int) :=
  let cs := s.data
  let y4 := cs.take 4
  if y4.length = 4 ∧ y4.all Char.isDigit then
    match cs.drop 4 with
    | '-' :: r1 =>
      let mrun := digitsSpan r1
      if 1 ≤ mrun.1.length ∧ mrun.1.length ≤ 2 then
        match mrun.2 with
        | '-' :: r3 =>
          let drun := digitsSpan r3
          if 1 ≤ drun.1.length ∧ drun.1.length ≤ 2 ∧ drun.2 = [] then
            mkDate (digitsVal y4) (digitsVal mrun.1) (digitsVal drun.1)
          else none
        | _ => none
      else none
    | _ => none
  else none

/-- `datetime.strptime(s, "%H:%M").time()` as `(hour, minute)`;
`none` = it raised `ValueError`. -/
def parseTimeHM (s : String) : Option (Int × Int) :=
  let hrun := digitsSpan s.data
  if 1 ≤ hrun.1.length ∧ hrun.1.length ≤ 2 then
    match hrun.2 with
    | ':' :: r2 =>
      let mrun := digitsSpan r2
      if 1 ≤ mrun.1.length ∧ mrun.1.length ≤ 2 ∧ mrun.2 = [] then
        let h := digitsVal hrun.1
        let mi := digitsVal mrun.1
        if h ≤ 23 ∧ mi ≤ 59 then some (h, mi) else none
      else none
    | _ => none
  else none

/-! ### `validate_datetime_input` (utils.py:288) -/

/-- The `except ValueError` message prefix; the caught exception's own text
(appended by the f-string) is elided, being produced by the Python runtime. -/
def invalidFormatMsg : String := "Invalid date/time format: "

def pastMsg : String := "Cannot book appointments in the past"

def businessHoursMsg : String := "Please choose a time between 6:00 AM and 10:00 PM"

/-- `validate_datetime_input(date_str, time_str)` over the injected `today`
(day number): date parsed and checked against today, then time parsed, then
the hour test `hour < 6 or hour > 22`. -/
def validate_datetime_input (today : Int) (date_str time_str : String) : Bool × String :=
  match parseDateYMD date_str with
  | none => (false, invalidFormatMsg)
  | some (y, m, d) =>
    if daysFromCivil y m d < today then (false, pastMsg)
    else
      match parseTimeHM time_str with
      | none => (false, invalidFormatMsg)
      | some (hour, _minute) =>
        if hour < 6 ∨ hour > 22 then (false, businessHoursMsg)
        else (true, "")

/-! ### The Slot Allocator -/

/-- The half-open overlap test of `get_time_slot_suggestions`
(utils.py:352): `slot_start < event_end and slot_end > event_start`. -/
def conflicts (aStart aEnd bStart bEnd : Int) : Bool :=
  decide (aStart < bEnd) && decide (aEnd > bStart)

def default_suggestions : List String := ["09:00", "10:00", "14:00", "15:00", "16:00"]

/-- `get_time_slot_suggestions` (utils.py:317).  Existing events are passed
as already-parsed `(start, end)` minute intervals (`datetime.fromisoformat`
of their strings is external); the `strptime` of `preferred_date` is the
first statement of the `try`, so a malformed date reaches the `except`
branch before any event is touched.  Hourly slots over business hours
9..17, keep the conflict-free ones, first five. -/
def get_time_slot_suggestions (existing_events : List (Int × Int))
    (preferred_date : String) (duration_minutes : Int) : List String :=
  let business_start : Nat := 9
  let business_end : Nat := 17
  match parseDateYMD preferred_date with
  | none => default_suggestions
  | some (y, m, d) =>
    let dayMin := 1440 * daysFromCivil y m d
    let suggestions := (List.range' business_start (business_end - business_start)).filterMap
      fun hour =>
        let slot_start := dayMin + 60 * (hour : Int)
        let slot_end := slot_start + duration_minutes
        if existing_events.any fun ev => conflicts slot_start slot_end ev.1 ev.2 then
          none
        else
          some (pad2 (hour : Int) ++ ":00")
    suggestions.take 5

/-- The free-slot sweep inside `check_availability` (calendar_tools.py:183):
a cursor walks the events (ordered by start, as the calendar API returns
them), emitting the gap before each event when the cursor is behind its
start, advancing the cursor by `max(current_time, event_end)`, and emitting
the final gap before the window end.  Datetimes are minutes; the source's
`"HH:MM-HH:MM"` formatting of each gap is elided. -/
def check_availability_gaps (cursor window_end : Int) : List (Int × Int) → List (Int × Int)
  | [] => if cursor < window_end then [(cursor, window_end)] else []
  | (event_start, event_end) :: rest =>
    (if cursor < event_start then [(cursor, event_start)] else []) ++
      check_availability_gaps (max cursor event_end) window_end rest

/-! ### `cancel_appointment` (calendar_tools.py:294) -/

/-- What the embedding needs of a formatted calendar event. -/
structure CEvent where
  id : String
  summary : String
deriving Repr, DecidableEq

/-- Python `needle in hay` (substring containment). -/
def strContains (hay needle : String) : Bool :=
  (List.range (hay.data.length + 1)).any fun i => needle.data.isPrefixOf (hay.data.drop i)

/-- The filter at calendar_tools.py:318:
`appointment_summary.lower() in event['summary'].lower()`. -/
def matching_events (events : List CEvent) (appointment_summary : String) : List CEvent :=
  events.filter fun e => strContains (pyLower e.summary) (pyLower appointment_summary)

/-- `cancel_appointment(appointment_summary, date_str)`.  External state is
injected: `connected` (whether `calendar_manager.service` is set), `events`
(what `get_events` returns for that whole day) and `delete_ok` (what
`delete_event` would return).  Result: the event id handed to
`delete_event` (`none` = delete never invoked) and the returned message.
The source tests emptiness, then `len > 1`, then uses the single element;
the three-way match below is the same case split. -/
def cancel_appointment (connected : Bool) (delete_ok : Bool) (events : List CEvent)
    (appointment_summary date_str : String) : Option String × String :=
  if !connected then
    (none, "❌ Google Calendar is not connected. Please set up your service account credentials to cancel real appointments.")
  else
    match parseDateYMD date_str with
    | none => (none, "❌ Invalid date format: ")
    | some _ =>
      match matching_events events appointment_summary with
      | [] =>
        (none, "❌ No appointment found with summary '" ++ appointment_summary
          ++ "' on " ++ date_str)
      | [event_to_cancel] =>
        (some event_to_cancel.id,
          if delete_ok then
            "✅ Successfully cancelled '" ++ event_to_cancel.summary ++ "' on " ++ date_str
          else
            "❌ Failed to cancel appointment. Please try again.")
      | e1 :: e2 :: more =>
        (none, "❌ Multiple appointments found: "
          ++ String.intercalate ", " ((e1 :: e2 :: more).map (·.summary))
          ++ ". Please be more specific.")

/-! ### A spec-side comparison definition -/

/-- Modelled from the spec: the spec's "internal parse exceptions for one
candidate pattern are caught and treated as try-next-pattern" reading of the
time loop.  Identical to `runTimePatterns` except that a matched pattern
whose value fails to parse is skipped and the later patterns are tried.
Used only to compare the source's actual time loop against the spec's words. -/
def runTimePatternsSpec : List (Rx × Nat) → String → Option String
  | [], _ => none
  | (r, ng) :: rest, t =>
    match r.search t with
    | some m =>
      match timeValueOfMatch m ng with
      | some v => some v
      | none => runTimePatternsSpec rest t
    | none => runTimePatternsSpec rest t

/-! ### Helper lemmas -/

/-- Euclidean div/mod facts for modulus 7, in the form `omega` consumes. -/
theorem emod7_facts (x : Int) : 0 ≤ x.emod 7 ∧ x.emod 7 < 7 ∧ 7 * (x.ediv 7) + x.emod 7 = x :=
  ⟨Int.emod_nonneg x (by norm_num), Int.emod_lt_of_pos x (by norm_num), Int.ediv_add_emod x 7⟩

/-- A successful association-list lookup returns one of the stored values. -/
theorem lookupAssoc_val_mem (l : List (String × Int)) (k : String) (t : Int)
    (h : lookupAssoc l k = some t) : t ∈ l.map (·.2) := by
  induction l with
  | nil => simp [lookupAssoc] at h
  | cons p rest ih =>
    simp only [lookupAssoc, List.find?] at h
    rcases hpk : (p.1 == k) with _ | _
    · simp [hpk] at h
      exact List.mem_cons_of_mem _ (ih (by simp [lookupAssoc, h]))
    · simp [hpk] at h
      simp [h]

/-- The sweep of `check_availability`, with the busy list contained in the
window, pairwise non-overlapping and (hence) sorted: the emitted gaps plus
the busy intervals cover exactly the window, with the pieces pairwise
disjoint, all within the window and nonempty.  Induction over the busy list
generalizing the cursor; under these hypotheses `max cursor end = end` at
every step. -/
theorem gaps_partition_aux (we : Int) (l : List (Int × Int)) : ∀ c : Int,
    (∀ p ∈ l, p.1 < p.2) → (∀ p ∈ l, c ≤ p.1) → (∀ p ∈ l, p.2 ≤ we) →
    l.Pairwise (fun a b => a.2 ≤ b.1) →
    (∀ t : Int, (c ≤ t ∧ t < we) ↔
      ∃ p ∈ check_availability_gaps c we l ++ l, p.1 ≤ t ∧ t < p.2) ∧
    (∀ p ∈ check_availability_gaps c we l ++ l, c ≤ p.1 ∧ p.1 < p.2 ∧ p.2 ≤ we) ∧
    (∀ p ∈ check_availability_gaps c we l ++ l, ∀ q ∈ check_availability_gaps c we l ++ l,
      p = q ∨ p.2 ≤ q.1 ∨ q.2 ≤ p.1) := by
  induction l with
  | nil =>
    intro c _ _ _ _
    refine ⟨?_, ?_, ?_⟩
    · intro t
      by_cases h : c < we
      · simp [check_availability_gaps, h]
      · simp [check_availability_gaps, h]
        omega
    · intro p hp
      by_cases h : c < we <;> simp [check_availability_gaps, h] at hp
      obtain rfl := hp
      exact ⟨le_refl _, h, le_refl _⟩
    · intro p hp q hq
      by_cases h : c < we <;> simp [check_availability_gaps, h] at hp hq
      left; rw [hp, hq]
  | cons hd rest ih =>
    intro c hlt hlo hhi hdisj
    obtain ⟨s, e⟩ := hd
    have hse : s < e := hlt _ (List.mem_cons_self _ _)
    have hcs : c ≤ s := hlo _ (List.mem_cons_self _ _)
    have hewe : e ≤ we := hhi _ (List.mem_cons_self _ _)
    rw [List.pairwise_cons] at hdisj
    obtain ⟨hhead, htail⟩ := hdisj
    have hmax : max c e = e := max_eq_right (by omega)
    obtain ⟨ihcov, ihbnd, ihdisj⟩ := ih e
      (fun p hp => hlt p (List.mem_cons_of_mem _ hp))
      (fun p hp => hhead p hp)
      (fun p hp => hhi p (List.mem_cons_of_mem _ hp))
      htail
    have hmem : ∀ p : Int × Int,
        (p ∈ check_availability_gaps c we ((s, e) :: rest) ++ (s, e) :: rest) ↔
        ((c < s ∧ p = (c, s)) ∨ p = (s, e) ∨
          p ∈ check_availability_gaps e we rest ++ rest) := by
      intro p
      simp only [check_availability_gaps, hmax, List.mem_append, List.mem_cons]
      by_cases h : c < s <;> simp [h] <;> tauto
    refine ⟨?_, ?_, ?_⟩
    · intro t
      constructor
      · rintro ⟨hct, htw⟩
        by_cases h1 : t < s
        · exact ⟨(c, s), (hmem _).mpr (Or.inl ⟨by omega, rfl⟩), by omega⟩
        · by_cases h2 : t < e
          · exact ⟨(s, e), (hmem _).mpr (Or.inr (Or.inl rfl)), by omega⟩
          · obtain ⟨p, hp, hpt⟩ := (ihcov t).mp ⟨by omega, htw⟩
            exact ⟨p, (hmem _).mpr (Or.inr (Or.inr hp)), hpt⟩
      · rintro ⟨p, hp, hpt⟩
        rcases (hmem _).mp hp with ⟨hclt, rfl⟩ | rfl | hP
        · dsimp only at hpt; omega
        · dsimp only at hpt; omega
        · have := (ihcov t).mpr ⟨p, hP, hpt⟩
          omega
    · intro p hp
      rcases (hmem _).mp hp with ⟨hclt, rfl⟩ | rfl | hP
      · exact ⟨le_refl _, hclt, by omega⟩
      · exact ⟨hcs, hse, hewe⟩
      · obtain ⟨h1, h2, h3⟩ := ihbnd p hP
        exact ⟨by omega, h2, h3⟩
    · intro p hp q hq
      rcases (hmem _).mp hp with ⟨hc1, rfl⟩ | rfl | hP <;>
        rcases (hmem _).mp hq with ⟨hc2, rfl⟩ | rfl | hQ
      · left; rfl
      · right; left; exact le_refl s
      · obtain ⟨h1, _, _⟩ := ihbnd q hQ
        right; left; dsimp only; omega
      · right; right; exact le_refl s
      · left; rfl
      · obtain ⟨h1, _, _⟩ := ihbnd q hQ
        right; left; dsimp only; omega
      · obtain ⟨h1, _, _⟩ := ihbnd p hP
        right; right; dsimp only; omega
      · obtain ⟨h1, _, _⟩ := ihbnd p hP
        right; right; dsimp only; omega
      · exact ihdisj p hP q hQ

/-! ### Claim theorems -/

/-- C1: the claim says extraction on "2pm" yields "14:00", on "12am"
"00:00", on "12pm" "12:00" and on "9:30" "09:30".  Evaluating the code:
the colon forms behave exactly as the claimed normalization formula
("9:30" → "09:30", "2:00pm" → "14:00", "12:00am" → "00:00",
"12:00pm" → "12:00"), but on the bare-hour meridiem forms "2pm", "12am",
"12pm" the code leaves `time = None`: the bare-hour pattern has only two
groups, so `_parse_time_match` computes the minutes as `int("pm")`/
`int("am")` (which raises, caught into `None`) and its
`am_pm = groups[-1] if len(groups) > 2` never sees the meridiem. -/
theorem extract_time_meridiem_eval : ∀ today : Int,
    (extract_datetime_info today "2pm").time = none ∧
    (extract_datetime_info today "12am").time = none ∧
    (extract_datetime_info today "12pm").time = none ∧
    (extract_datetime_info today "9:30").time = some "09:30" ∧
    (extract_datetime_info today "2:00pm").time = some "14:00" ∧
    (extract_datetime_info today "12:00am").time = some "00:00" ∧
    (extract_datetime_info today "12:00pm").time = some "12:00" :=
  fun _ => ⟨rfl, rfl, rfl, rfl, rfl, rfl, rfl⟩

/-- C2 (amended): for a window `[ws, we)` and busy intervals that are
nonempty, contained in the window and pairwise non-overlapping (hence
sorted ascending by start), the gaps emitted by the `check_availability`
sweep together with the busy intervals exactly tile the window: every
window instant lies in some piece, no instant outside the window does, and
the pieces are pairwise disjoint; zero busy intervals yield the single gap
spanning the whole window. -/
theorem check_availability_partition (ws we : Int) (l : List (Int × Int))
    (hlt : ∀ p ∈ l, p.1 < p.2)
    (hlo : ∀ p ∈ l, ws ≤ p.1)
    (hhi : ∀ p ∈ l, p.2 ≤ we)
    (hdisj : l.Pairwise fun a b => a.2 ≤ b.1) :
    (∀ t : Int, (ws ≤ t ∧ t < we) ↔
      ∃ p ∈ check_availability_gaps ws we l ++ l, p.1 ≤ t ∧ t < p.2) ∧
    (∀ p ∈ check_availability_gaps ws we l ++ l,
      ∀ q ∈ check_availability_gaps ws we l ++ l, p = q ∨ p.2 ≤ q.1 ∨ q.2 ≤ p.1) ∧
    (ws < we → check_availability_gaps ws we [] = [(ws, we)]) := by
  obtain ⟨hcov, _, hdj⟩ := gaps_partition_aux we l ws hlt hlo hhi hdisj
  exact ⟨hcov, hdj, fun h => by simp [check_availability_gaps, h]⟩

/-- C2 witness: the spec's own adjacent-events example, busy 9:00–10:00 and
10:00–11:30 (minutes 540–600, 600–690) over the window 9:00–17:00
(540–1020). -/
theorem check_availability_partition_witness :
    (∀ t : Int, (540 ≤ t ∧ t < 1020) ↔
      ∃ p ∈ check_availability_gaps 540 1020 [(540, 600), (600, 690)]
          ++ [(540, 600), (600, 690)], p.1 ≤ t ∧ t < p.2) ∧
    (∀ p ∈ check_availability_gaps 540 1020 [(540, 600), (600, 690)]
          ++ [(540, 600), (600, 690)],
      ∀ q ∈ check_availability_gaps 540 1020 [(540, 600), (600, 690)]
          ++ [(540, 600), (600, 690)], p = q ∨ p.2 ≤ q.1 ∨ q.2 ≤ p.1) ∧
    ((540 : Int) < 1020 → check_availability_gaps 540 1020 [] = [(540, 1020)]) :=
  check_availability_partition 540 1020 [(540, 600), (600, 690)]
    (by decide) (by decide) (by decide) (by decide)

/-- C2 counterexample: with busy intervals that are sorted by start, each
nonempty and each merely OVERLAPPING the window `[540, 1020)` — as the
claim's hypotheses ask — the partition conclusion is false: for
busy = [(540, 720), (600, 1080)] the sweep emits no gap and the two busy
intervals overlap each other (both contain minute 650) and stick out past
the window end, so the pieces neither tile the window nor are disjoint. -/
theorem check_availability_partition_counterexample :
    ((540 : Int) ≤ 600 ∧
      (∀ p ∈ ([(540, 720), (600, 1080)] : List (Int × Int)),
        p.1 < p.2 ∧ p.1 < 1020 ∧ 540 < p.2)) ∧
    ¬ ((∀ t : Int, (540 ≤ t ∧ t < 1020) ↔
          ∃ p ∈ check_availability_gaps 540 1020 [(540, 720), (600, 1080)]
              ++ [(540, 720), (600, 1080)], p.1 ≤ t ∧ t < p.2) ∧
        (∀ p ∈ check_availability_gaps 540 1020 [(540, 720), (600, 1080)]
              ++ [(540, 720), (600, 1080)],
          ∀ q ∈ check_availability_gaps 540 1020 [(540, 720), (600, 1080)]
              ++ [(540, 720), (600, 1080)], p = q ∨ p.2 ≤ q.1 ∨ q.2 ≤ p.1)) := by
  refine ⟨by decide, ?_⟩
  rintro ⟨h1, h2⟩
  rcases h2 (540, 720) (by decide) (600, 1080) (by decide) with h | h | h
  · simp at h
  · dsimp only at h; omega
  · dsimp only at h; omega

/-- C3 (amended): every error path of `validate_datetime_input` — an
unparseable `YYYY-MM-DD` date, a date strictly before today, an unparseable
`HH:MM` time — returns `False` with the corresponding message; the
business-hour bound is enforced at whole-hour granularity (`hour < 6 or
hour > 22`), so 22:01–22:59, though outside 06:00–22:00, are accepted
(see the counterexample). -/
theorem validate_datetime_error_paths (today : Int) (ds ts : String) :
    (parseDateYMD ds = none → validate_datetime_input today ds ts = (false, invalidFormatMsg)) ∧
    (∀ y m d, parseDateYMD ds = some (y, m, d) → daysFromCivil y m d < today →
      validate_datetime_input today ds ts = (false, pastMsg)) ∧
    (∀ y m d, parseDateYMD ds = some (y, m, d) → ¬ daysFromCivil y m d < today →
      parseTimeHM ts = none →
      validate_datetime_input today ds ts = (false, invalidFormatMsg)) ∧
    (∀ y m d h mi, parseDateYMD ds = some (y, m, d) → ¬ daysFromCivil y m d < today →
      parseTimeHM ts = some (h, mi) → (h < 6 ∨ h > 22) →
      validate_datetime_input today ds ts = (false, businessHoursMsg)) := by
  refine ⟨?_, ?_, ?_, ?_⟩ <;> intros <;> simp_all [validate_datetime_input]

/-- C3 counterexample: 22:30 lies outside the claimed business-hour bounds
06:00–22:00, yet `validate_datetime_input` accepts it (the source tests
`time_obj.hour > 22`, and the hour of 22:30 is 22). -/
theorem validate_hour_bound_counterexample :
    validate_datetime_input 0 "2099-01-01" "22:30" = (true, "") ∧
    parseTimeHM "22:30" = some (22, 30) :=
  ⟨rfl, rfl⟩

/-- C4: the conflict test of `get_time_slot_suggestions` is the half-open
overlap test `aStart < bEnd AND bStart < aEnd`; it is symmetric in its two
intervals; touching endpoints do not conflict (busy 9:00–10:00 versus
proposed 10:00–11:00, minutes 540–600 and 600–660), while a one-minute
overhang does (proposed 9:59–10:01 versus busy 9:00–10:00). -/
theorem conflict_test_symmetric_halfopen :
    (∀ aStart aEnd bStart bEnd : Int,
      conflicts aStart aEnd bStart bEnd = conflicts bStart bEnd aStart aEnd) ∧
    (∀ aStart aEnd bStart bEnd : Int,
      conflicts aStart aEnd bStart bEnd = true ↔ aStart < bEnd ∧ bStart < aEnd) ∧
    conflicts 600 660 540 600 = false ∧
    conflicts 599 601 540 600 = true :=
  ⟨fun _ _ _ _ => Bool.and_comm _ _, fun _ _ _ _ => by simp [conflicts],
    by decide, by decide⟩

/-- C5: for every weekday name resolved by `weekday_map`, `next <weekday>`
returns the occurrence strictly after today (today + 7 when today already
is that weekday, never today) and `this <weekday>` the occurrence on or
after today (today itself when today is that weekday); both land on the
requested weekday within the coming week. -/
theorem weekday_next_this_correct (today target rn rt : Int) (w : String)
    (hw : lookupAssoc weekday_map (pyLower w) = some target)
    (hn : parse_next_weekday today (some w) = some rn)
    (ht : parse_this_weekday today (some w) = some rt) :
    (today < rn ∧ rn ≤ today + 7 ∧ pyWeekday rn = target ∧
      (pyWeekday today = target → rn = today + 7)) ∧
    (today ≤ rt ∧ rt < today + 7 ∧ pyWeekday rt = target ∧
      (pyWeekday today = target → rt = today)) := by
  have hb : 0 ≤ target ∧ target < 7 := by
    have := lookupAssoc_val_mem _ _ _ hw
    simp [weekday_map] at this
    omega
  have f1 := emod7_facts (today + 3)
  have f2 := emod7_facts (rn + 3)
  have f3 := emod7_facts (rt + 3)
  simp [parse_next_weekday, parse_this_weekday, hw] at hn ht
  simp only [pyWeekday] at *
  split_ifs at hn ht <;> omega

/-- C5 witness: day 4 (1970-01-05, a Monday) with "monday": `next monday`
gives day 11 (the Monday a week on, never today), `this monday` gives
day 4 (today). -/
theorem weekday_next_this_witness :
    ((4 : Int) < 11 ∧ (11 : Int) ≤ 4 + 7 ∧ pyWeekday 11 = 0 ∧
      (pyWeekday 4 = 0 → (11 : Int) = 4 + 7)) ∧
    ((4 : Int) ≤ 4 ∧ (4 : Int) < 4 + 7 ∧ pyWeekday 4 = 0 ∧
      (pyWeekday 4 = 0 → (4 : Int) = 4)) :=
  weekday_next_this_correct 4 0 11 4 "monday" rfl rfl rfl

/-- C6: evaluating `extract_datetime_info` on "Book a meeting tomorrow at
2 PM for 45 minutes": the date is today + 1 and the duration 45 minutes as
the claim says, but the time is left unresolved (`None`), not "14:00" —
"2 pm" is matched by the bare-hour meridiem pattern whose parse raises
internally (the same slip as in C1). -/
theorem extract_end_to_end_eval : ∀ today : Int,
    (extract_datetime_info today "Book a meeting tomorrow at 2 PM for 45 minutes").date
      = some (today + 1) ∧
    (extract_datetime_info today "Book a meeting tomorrow at 2 PM for 45 minutes").duration
      = some 45 ∧
    (extract_datetime_info today "Book a meeting tomorrow at 2 PM for 45 minutes").time
      = none ∧
    (extract_datetime_info today "Book a meeting tomorrow at 2 PM for 45 minutes").date_str
      = some (fmtDate (today + 1)) :=
  fun _ => ⟨rfl, rfl, rfl, rfl⟩

/-- C7 (amended): extraction is total with the complete six-field shape and
consistent derived fields (`time_str` mirrors `time`, `date_str` is exactly
the formatted `date`), and a match whose resolver fails is treated as
try-next-pattern in the DATE and DURATION loops; the counterexample shows
the time loop instead stops with `time` unresolved. -/
theorem extraction_total_shape (today : Int) (text : String) :
    (extract_datetime_info today text).time_str = (extract_datetime_info today text).time ∧
    (extract_datetime_info today text).date_str
      = ((extract_datetime_info today text).date).map fmtDate ∧
    (∀ (r : Rx) (p : RMatch → Option Int) rest t m,
      r.search t = some m → p m = none →
      runDatePatterns ((r, p) :: rest) t = runDatePatterns rest t) ∧
    (∀ (r : Rx) (p : RMatch → Option Int) rest t m,
      r.search t = some m → p m = none →
      runDurationPatterns ((r, p) :: rest) t = runDurationPatterns rest t) := by
  refine ⟨rfl, rfl, ?_, ?_⟩ <;>
    · intro r p rest t m hs hp
      simp [runDatePatterns, runDurationPatterns, hs, hp]

/-- C7 counterexample: on "2pm and 3.45" the code's time loop matches the
bare-hour pattern at "2pm", its parse fails, and the loop stops with
`time = None`; under the claimed try-next-pattern treatment (the
spec-modelled `runTimePatternsSpec`) the later `H.MM` pattern would have
produced "03:45".  So an internal parse failure in the time loop is NOT
treated as try-next-pattern. -/
theorem time_loop_not_try_next :
    (extract_datetime_info 0 "2pm and 3.45").time = none ∧
    (extract_datetime_info 0 "2pm and 3.45").time_str = none ∧
    runTimePatternsSpec time_patterns (pyLower "2pm and 3.45") = some "03:45" :=
  ⟨rfl, rfl, rfl⟩

/-- C8: whenever `preferred_date` is not a valid `YYYY-MM-DD` date string,
`get_time_slot_suggestions` returns exactly the fixed default list, for
every event list and duration (the `strptime` raise lands in the `except`
branch before anything else runs). -/
theorem slot_suggestions_fallback (existing_events : List (Int × Int))
    (duration_minutes : Int) (preferred_date : String)
    (h : parseDateYMD preferred_date = none) :
    get_time_slot_suggestions existing_events preferred_date duration_minutes
      = ["09:00", "10:00", "14:00", "15:00", "16:00"] := by
  simp [get_time_slot_suggestions, h, default_suggestions]

/-- C8 witness: a malformed date with a busy event list and a nonstandard
duration still yields the default list. -/
theorem slot_suggestions_fallback_witness :
    get_time_slot_suggestions [(0, 60)] "not-a-date" 45
      = ["09:00", "10:00", "14:00", "15:00", "16:00"] :=
  slot_suggestions_fallback [(0, 60)] 45 "not-a-date" rfl

/-- C9: in every extraction result, `parsed_datetime` is set only when both
`date` and `time` resolved, and then it is exactly their combination
(`combine_datetime`); if either is unresolved it stays `None`. -/
theorem parsed_datetime_invariant (today : Int) (text : String) :
    (∀ dt, (extract_datetime_info today text).parsed_datetime = some dt →
      ∃ d t, (extract_datetime_info today text).date = some d ∧
        (extract_datetime_info today text).time = some t ∧
        combine_datetime d t = some dt) ∧
    ((extract_datetime_info today text).date = none ∨
        (extract_datetime_info today text).time = none →
      (extract_datetime_info today text).parsed_datetime = none) := by
  rcases hd : runDatePatterns (date_patterns today) (pyLower text) with _ | d <;>
    rcases ht : runTimePatterns time_patterns (pyLower text) with _ | t <;>
      constructor <;> simp_all [extract_datetime_info]

/-- C10: with the calendar connected and a valid date, `cancel_appointment`
hands an event id to the delete call if and only if exactly one fetched
event's summary contains the requested summary case-insensitively (then it
is that event's id); with zero or several matches it deletes nothing and
returns an error message. -/
theorem cancel_requires_unique_match (delete_ok : Bool) (events : List CEvent)
    (appointment_summary date_str : String)
    (hd : (parseDateYMD date_str).isSome = true) :
    ((cancel_appointment true delete_ok events appointment_summary date_str).1.isSome
        ↔ (matching_events events appointment_summary).length = 1) ∧
    (∀ e, matching_events events appointment_summary = [e] →
      (cancel_appointment true delete_ok events appointment_summary date_str).1 = some e.id) ∧
    ((matching_events events appointment_summary).length ≠ 1 →
      (cancel_appointment true delete_ok events appointment_summary date_str).1 = none) := by
  rcases hp : parseDateYMD date_str with _ | v
  · simp [hp] at hd
  · rcases hm : matching_events events appointment_summary with _ | ⟨e1, _ | ⟨e2, more⟩⟩ <;>
      simp_all [cancel_appointment]

/-- C10 witness: two events, exactly one of which contains "dentist"
case-insensitively. -/
theorem cancel_requires_unique_match_witness :
    (((cancel_appointment true true [⟨"id1", "Dentist"⟩, ⟨"id2", "Gym"⟩]
          "dentist" "2024-10-12").1.isSome
        ↔ (matching_events [⟨"id1", "Dentist"⟩, ⟨"id2", "Gym"⟩] "dentist").length = 1) ∧
      (∀ e, matching_events [⟨"id1", "Dentist"⟩, ⟨"id2", "Gym"⟩] "dentist" = [e] →
        (cancel_appointment true true [⟨"id1", "Dentist"⟩, ⟨"id2", "Gym"⟩]
            "dentist" "2024-10-12").1 = some e.id) ∧
      ((matching_events [⟨"id1", "Dentist"⟩, ⟨"id2", "Gym"⟩] "dentist").length ≠ 1 →
        (cancel_appointment true true [⟨"id1", "Dentist"⟩, ⟨"id2", "Gym"⟩]
            "dentist" "2024-10-12").1 = none)) :=
  cancel_requires_unique_match true [⟨"id1", "Dentist"⟩, ⟨"id2", "Gym"⟩]
    "dentist" "2024-10-12" rfl
